import Mathlib

/-!
Verification development for the Everdell game-state store
(`src/model/db.ts`) and the client synchronizer
(`src/components/GameUpdater.tsx`).

The TypeScript code is shallowly embedded: each relevant function is
translated to an executable Lean definition over explicit state, with
asynchronous fallible operations returning `Except DbError`.
JavaScript truthiness of strings (the empty string is falsy) is
modelled explicitly wherever the source relies on it.
-/

set_option autoImplicit false

instance exceptDecEq {ε α : Type} [DecidableEq ε] [DecidableEq α] : DecidableEq (Except ε α)
  | .ok x, .ok y =>
    if h : x = y then .isTrue (congrArg Except.ok h)
    else .isFalse (fun hc => h (Except.ok.inj hc))
  | .error x, .error y =>
    if h : x = y then .isTrue (congrArg Except.error h)
    else .isFalse (fun hc => h (Except.error.inj hc))
  | .ok _, .error _ => .isFalse (fun hc => Except.noConfusion hc)
  | .error _, .ok _ => .isFalse (fun hc => Except.noConfusion hc)

namespace Everdell

/-- Character-list prefix test, used to model `String.prototype.startsWith`
and substring search on the character level (kernel-reducible). -/
def isPrefixOfList : List Char → List Char → Bool
  | [], _ => true
  | _ :: _, [] => false
  | p :: ps, c :: cs => p == c && isPrefixOfList ps cs

/-- Substring containment on character lists: models
`s.indexOf(pat) !== -1` in JavaScript. -/
def containsSubList (pat : List Char) : List Char → Bool
  | [] => isPrefixOfList pat []
  | c :: cs => isPrefixOfList pat (c :: cs) || containsSubList pat cs

/-- Models `s.indexOf(pat) !== -1`. -/
def containsSubstring (s pat : String) : Bool :=
  containsSubList pat.toList s.toList

/-- Models `s.startsWith(pre)`. -/
def strStartsWith (s pre : String) : Bool :=
  isPrefixOfList pre.toList s.toList

/-- JavaScript truthiness of an optional string (`!!x`): `undefined` and
the empty string are falsy. -/
def isConfigured : Option String → Bool
  | some u => u != ""
  | none => false

/-- The three backend kinds of `db.ts`: `type StoreType = "pg" | "pg-deprecated" | "local"`
(`local` is renamed `localDb` because `local` is a Lean keyword). -/
inductive StoreType
  | pg
  | pgDeprecated
  | localDb
deriving DecidableEq

/-- Process environment read at module load: `DATABASE_URL_SUPABASE`,
`DATABASE_URL_HEROKU`, `DB_PATH`. -/
structure Config where
  databaseUrlSupabase : Option String
  databaseUrlHeroku : Option String
  dbPath : Option String
deriving DecidableEq

/-- Models the `storeUrlForType` record of `db.ts`. -/
def storeUrlForType (cfg : Config) : StoreType → Option String
  | .pg => cfg.databaseUrlSupabase
  | .pgDeprecated => cfg.databaseUrlHeroku
  | .localDb => cfg.dbPath

/-- Models the module-load check of `db.ts` lines 15-18:
`Object.values(storeUrlForType).filter((x) => !!x).length === 0`
causes `process.exit(-1)`. -/
def startupAborts (cfg : Config) : Bool :=
  (([cfg.databaseUrlSupabase, cfg.databaseUrlHeroku, cfg.dbPath].filter
      isConfigured).length == 0)

/-- Failure modes of the store layer (thrown errors in the source). -/
inductive DbError
  | noBackendConfigured
  | duplicateKey
  | parseError
deriving DecidableEq

/-- Models `getDbInstance(preferredOrder)`: walk the preferred order and
return the (singleton for the) first kind whose endpoint is truthy;
otherwise `throw new Error("Unable to instantiate DB instance.")`. -/
def getDbInstance (cfg : Config) : List StoreType → Except DbError StoreType
  | [] => .error .noBackendConfigured
  | t :: rest =>
    if isConfigured (storeUrlForType cfg t) then .ok t else getDbInstance cfg rest

/-- Preferred kind order from the session id prefix, as in `getDbForGameId`:
`gameId.startsWith("v2:") ? ["pg", "local"] : ["pg-deprecated", "local"]`. -/
def preferredOrder (gameId : String) : List StoreType :=
  if strStartsWith gameId "v2:" then [.pg, .localDb] else [.pgDeprecated, .localDb]

/-- Models `getDbForGameId`. -/
def getDbForGameId (cfg : Config) (gameId : String) : Except DbError StoreType :=
  getDbInstance cfg (preferredOrder gameId)

/-- Everything after the first `"://"` in a character list (the whole
input when the separator is absent). -/
def afterSchemeSep (sep : List Char) : List Char → List Char
  | [] => []
  | c :: cs =>
    if isPrefixOfList sep (c :: cs) then (c :: cs).drop sep.length
    else afterSchemeSep sep cs

/-- Host part of the remainder: characters up to the first `:` or `/`. -/
def hostChars : List Char → List Char
  | [] => []
  | c :: cs => if c == ':' || c == '/' then [] else c :: hostChars cs

/-- Host component of a connection URL (scheme and port stripped). -/
def hostOf (url : String) : String :=
  if containsSubstring url "://" then
    ⟨hostChars (afterSchemeSep "://".toList url.toList)⟩
  else
    ⟨hostChars url.toList⟩

/-- Modelled from the spec: "TLS is required unless the endpoint is a
loopback address (local development exception)" — a loopback endpoint is
one whose host component is a loopback name or address. -/
def specIsLoopbackEndpoint (url : String) : Bool :=
  hostOf url == "localhost" || hostOf url == "127.0.0.1"

/-- Configuration handed to the connection pool by the `PgDb` constructor. -/
structure PgPoolConfig where
  connectionString : String
  sslEnabled : Bool
deriving DecidableEq

/-- Models the `PgDb` constructor (db.ts lines 80-93): `ssl` is set iff
`pgUrl.indexOf("localhost") === -1`. -/
def pgDbInit (pgUrl : String) : PgPoolConfig :=
  { connectionString := pgUrl
    sslEnabled := !containsSubstring pgUrl "localhost" }

/-- Walking a preferred order in which no kind is configured yields the
`NoBackendConfigured` failure. -/
theorem getDbInstance_all_unconfigured (cfg : Config) :
    ∀ order : List StoreType,
      (∀ t ∈ order, isConfigured (storeUrlForType cfg t) = false) →
      getDbInstance cfg order = .error .noBackendConfigured := by
  intro order
  induction order with
  | nil => intro _; rfl
  | cons t rest ih =>
    intro h
    have ht := h t (by simp)
    simp only [getDbInstance, ht, if_neg]
    exact ih (fun x hx => h x (by simp [hx]))

/-- C1: a session id with the "v2:" prefix routes to the current
networked-relational backend (`pg`) whenever its endpoint is configured,
regardless of the legacy endpoint; an id without the prefix routes to the
legacy backend (`pg-deprecated`) when configured, regardless of the current
one; the embedded-file backend (`local`) is selected only when the
preferred networked endpoint is absent. -/
theorem c1_router_selection (cfg : Config) (gameId : String) :
    (strStartsWith gameId "v2:" = true →
      isConfigured cfg.databaseUrlSupabase = true →
      getDbForGameId cfg gameId = .ok .pg)
    ∧ (strStartsWith gameId "v2:" = false →
      isConfigured cfg.databaseUrlHeroku = true →
      getDbForGameId cfg gameId = .ok .pgDeprecated)
    ∧ (getDbForGameId cfg gameId = .ok .localDb →
      (strStartsWith gameId "v2:" = true → isConfigured cfg.databaseUrlSupabase = false)
      ∧ (strStartsWith gameId "v2:" = false → isConfigured cfg.databaseUrlHeroku = false)) := by
  refine ⟨?_, ?_, ?_⟩
  · intro hv hc
    simp [getDbForGameId, preferredOrder, hv, getDbInstance, storeUrlForType, hc]
  · intro hv hc
    simp [getDbForGameId, preferredOrder, hv, getDbInstance, storeUrlForType, hc]
  · intro h
    constructor
    · intro hv
      cases hc : isConfigured cfg.databaseUrlSupabase with
      | false => rfl
      | true =>
        simp [getDbForGameId, preferredOrder, hv, getDbInstance, storeUrlForType, hc] at h
    · intro hv
      cases hc : isConfigured cfg.databaseUrlHeroku with
      | false => rfl
      | true =>
        simp [getDbForGameId, preferredOrder, hv, getDbInstance, storeUrlForType, hc] at h

/-- Witness for C1 at concrete configurations and ids. -/
theorem c1_router_selection_witness :
    getDbForGameId ⟨some "cur", some "leg", some "f"⟩ "v2:x" = .ok .pg
    ∧ getDbForGameId ⟨some "cur", some "leg", some "f"⟩ "x" = .ok .pgDeprecated :=
  ⟨(c1_router_selection ⟨some "cur", some "leg", some "f"⟩ "v2:x").1 (by decide) (by decide),
   (c1_router_selection ⟨some "cur", some "leg", some "f"⟩ "x").2.1 (by decide) (by decide)⟩

/-- C6 counterexample: with only the legacy endpoint configured, the process
does not abort at startup, yet resolving a "v2:" session id fails with
`NoBackendConfigured` — the failure is deferred to the first request for
that id, contradicting the claim that it is surfaced at process start. -/
theorem c6_counterexample :
    startupAborts ⟨none, some "postgres://legacy", none⟩ = false
    ∧ getDbForGameId ⟨none, some "postgres://legacy", none⟩ "v2:abc"
        = .error .noBackendConfigured := by
  decide

/-- C6 (amended): absence of ALL endpoints (and only that) aborts the
process at startup; when a particular session id's preferred order has no
configured endpoint, resolution fails with `NoBackendConfigured` at
resolution (request) time. -/
theorem c6_startup_and_resolution (cfg : Config) (gameId : String) :
    (startupAborts cfg = true ↔
      isConfigured cfg.databaseUrlSupabase = false
      ∧ isConfigured cfg.databaseUrlHeroku = false
      ∧ isConfigured cfg.dbPath = false)
    ∧ ((∀ t ∈ preferredOrder gameId, isConfigured (storeUrlForType cfg t) = false) →
      getDbForGameId cfg gameId = .error .noBackendConfigured) := by
  constructor
  · cases h1 : isConfigured cfg.databaseUrlSupabase <;>
      cases h2 : isConfigured cfg.databaseUrlHeroku <;>
        cases h3 : isConfigured cfg.dbPath <;>
          simp [startupAborts, List.filter, h1, h2, h3]
  · intro h
    exact getDbInstance_all_unconfigured cfg (preferredOrder gameId) h

/-- Witness for C6 (amended) at concrete configurations. -/
theorem c6_startup_and_resolution_witness :
    startupAborts ⟨none, none, none⟩ = true
    ∧ getDbForGameId ⟨none, some "u", none⟩ "v2:a" = .error .noBackendConfigured :=
  ⟨(c6_startup_and_resolution ⟨none, none, none⟩ "x").1.mpr (by decide),
   (c6_startup_and_resolution ⟨none, some "u", none⟩ "v2:a").2 (by decide)⟩

/-- C7 counterexample: `postgres://127.0.0.1:5432/games` is a loopback
endpoint, yet the constructor enables TLS for it, because the code tests
for the substring "localhost" rather than for a loopback address. -/
theorem c7_counterexample :
    specIsLoopbackEndpoint "postgres://127.0.0.1:5432/games" = true
    ∧ (pgDbInit "postgres://127.0.0.1:5432/games").sslEnabled = true := by
  decide

/-- C7 (amended): the networked-relational driver enables TLS iff the
connection string does not contain the substring "localhost" (this is not
a loopback test: loopback IP endpoints get TLS, and any URL merely
containing "localhost" — even in a non-loopback host name — does not). -/
theorem c7_ssl_substring_rule (url : String) :
    (pgDbInit url).connectionString = url
    ∧ ((pgDbInit url).sslEnabled = false ↔ containsSubstring url "localhost" = true) := by
  refine ⟨rfl, ?_⟩
  simp [pgDbInit]

/-- Witness for C7 (amended): a non-loopback host containing "localhost"
as a substring has TLS disabled. -/
theorem c7_ssl_substring_rule_witness :
    (pgDbInit "postgres://notlocalhost.example.com:5432/db").sslEnabled = false :=
  (c7_ssl_substring_rule "postgres://notlocalhost.example.com:5432/db").2.mpr (by decide)

/-- One row of the `games` table: `game_id varchar, game text` (the
`created_time` column is set by the engine on insert and never read by
this subsystem, so it is omitted from the model). -/
structure Row where
  game_id : String
  game : String
deriving DecidableEq

/-- Contents of one backend's `games` table, in insertion order. -/
abbrev Store := List Row

/-- The PRIMARY KEY (game_id) invariant of the `games` table. -/
def wfStore (st : Store) : Prop :=
  (st.map Row.game_id).Nodup

/-- Serialization boundary: `JSON.stringify` / `JSON.parse` are external
(the payload is an opaque blob to the store), modelled as an abstract
codec; the round-trip and non-emptiness facts used in theorems are
explicit hypotheses there. -/
structure Codec (α : Type) where
  stringify : α → String
  parse : String → Option α

/-- Concrete codec used by the closed witnesses. -/
def boolCodec : Codec Bool where
  stringify := fun b => if b then "true" else "false"
  parse := fun s =>
    if s == "true" then some true else if s == "false" then some false else none

namespace PgDb

/-- Models `PgDb.hasSavedGame`: `SELECT game_id FROM games WHERE game_id = $1`
and then `result.rows.length === 1`. -/
def hasSavedGame (st : Store) (gameId : String) : Bool :=
  (st.filter (fun r => r.game_id == gameId)).length == 1

/-- Models `PgDb.createGame`: `INSERT INTO games(game_id, game)`; the
PRIMARY KEY on `game_id` makes the insert fail when a row with that key
already exists. -/
def createGame (st : Store) (gameId gameJSON : String) : Except DbError Store :=
  if st.any (fun r => r.game_id == gameId) then .error .duplicateKey
  else .ok (st ++ [⟨gameId, gameJSON⟩])

/-- Models `PgDb.updateGame`: `UPDATE games SET game = $1 WHERE game_id = $2`. -/
def updateGame (st : Store) (gameId gameJSON : String) : Store :=
  st.map (fun r => if r.game_id == gameId then ⟨r.game_id, gameJSON⟩ else r)

/-- Models `PgDb.saveGame`: check `hasSavedGame`, then update or insert. -/
def saveGame (st : Store) (gameId gameJSON : String) : Except DbError Store :=
  if hasSavedGame st gameId then .ok (updateGame st gameId gameJSON)
  else createGame st gameId gameJSON

/-- Models `PgDb.getGameJSONById`: `SELECT game FROM games WHERE game_id = $1`,
then `result.rows.length === 1 ? JSON.parse(result.rows[0].game) : null`
(a `JSON.parse` failure is a thrown error). -/
def getGameJSONById {α : Type} (c : Codec α) (st : Store) (gameId : String) :
    Except DbError (Option α) :=
  match st.filter (fun r => r.game_id == gameId) with
  | [r] =>
    match c.parse r.game with
    | some j => .ok (some j)
    | none => .error .parseError
  | _ => .ok none

end PgDb

namespace SqliteDb

/-- Models `SqliteDb.hasSavedGame`: `db.get` yields the first matching row
(or none), and the code tests `row?.game_id` — JavaScript truthiness, so a
row whose `game_id` is the empty string counts as absent. -/
def hasSavedGame (st : Store) (gameId : String) : Bool :=
  match st.find? (fun r => r.game_id == gameId) with
  | some r => r.game_id != ""
  | none => false

/-- Models `SqliteDb.createGame`: `INSERT INTO games(game_id, game)` with
PRIMARY KEY (game_id). -/
def createGame (st : Store) (gameId gameJSON : String) : Except DbError Store :=
  if st.any (fun r => r.game_id == gameId) then .error .duplicateKey
  else .ok (st ++ [⟨gameId, gameJSON⟩])

/-- Models `SqliteDb.updateGame`: `UPDATE games SET game = ? WHERE game_id = ?`. -/
def updateGame (st : Store) (gameId gameJSON : String) : Store :=
  st.map (fun r => if r.game_id == gameId then ⟨r.game_id, gameJSON⟩ else r)

/-- Models `SqliteDb.saveGame`: check `hasSavedGame`, then update or insert. -/
def saveGame (st : Store) (gameId gameJSON : String) : Except DbError Store :=
  if hasSavedGame st gameId then .ok (updateGame st gameId gameJSON)
  else createGame st gameId gameJSON

/-- Models `SqliteDb.getGameJSONById`: `db.get` yields the first matching
row; the code tests `row?.game` (truthiness), so an existing row whose
payload is the empty string resolves to `null`. -/
def getGameJSONById {α : Type} (c : Codec α) (st : Store) (gameId : String) :
    Except DbError (Option α) :=
  match st.find? (fun r => r.game_id == gameId) with
  | some r =>
    if r.game != "" then
      match c.parse r.game with
      | some j => .ok (some j)
      | none => .error .parseError
    else .ok none
  | none => .ok none

end SqliteDb

/-- The three per-kind singleton table contents of the process. -/
structure World where
  pgStore : Store
  pgDepStore : Store
  localStore : Store
deriving DecidableEq

def storeOf (w : World) : StoreType → Store
  | .pg => w.pgStore
  | .pgDeprecated => w.pgDepStore
  | .localDb => w.localStore

def setStore (w : World) : StoreType → Store → World
  | .pg, st => { w with pgStore := st }
  | .pgDeprecated, st => { w with pgDepStore := st }
  | .localDb, st => { w with localStore := st }

/-- Dispatch of `IDb.getGameJSONById` on the driver kind selected by the
Router (`local` is the `SqliteDb` instance, the others are `PgDb`). -/
def driverGetGame {α : Type} (c : Codec α) (k : StoreType) (st : Store) (gameId : String) :
    Except DbError (Option α) :=
  match k with
  | .localDb => SqliteDb.getGameJSONById c st gameId
  | _ => PgDb.getGameJSONById c st gameId

/-- Dispatch of `IDb.saveGame` on the driver kind. -/
def driverSaveGame (k : StoreType) (st : Store) (gameId gameJSON : String) :
    Except DbError Store :=
  match k with
  | .localDb => SqliteDb.saveGame st gameId gameJSON
  | _ => PgDb.saveGame st gameId gameJSON

/-- Dispatch of `IDb.hasSavedGame` on the driver kind. -/
def driverHasSavedGame (k : StoreType) (st : Store) (gameId : String) : Bool :=
  match k with
  | .localDb => SqliteDb.hasSavedGame st gameId
  | _ => PgDb.hasSavedGame st gameId

/-- Models the exported `getGameJSONById` facade: resolve the driver via
the Router, ensure the schema (`createGamesTableIfNotExists` is idempotent
DDL, a no-op on the modelled table contents), then fetch. -/
def getGameJSONById {α : Type} (c : Codec α) (cfg : Config) (w : World) (gameId : String) :
    Except DbError (Option α) :=
  match getDbForGameId cfg gameId with
  | .error e => .error e
  | .ok k => driverGetGame c k (storeOf w k) gameId

/-- Models the exported `saveGameJSONById` facade: resolve the driver,
ensure the schema, then `db.saveGame(gameId, JSON.stringify(gameJSON))`. -/
def saveGameJSONById {α : Type} (c : Codec α) (cfg : Config) (w : World) (gameId : String)
    (g : α) : Except DbError World :=
  match getDbForGameId cfg gameId with
  | .error e => .error e
  | .ok k =>
    match driverSaveGame k (storeOf w k) gameId (c.stringify g) with
    | .error e => .error e
    | .ok st => .ok (setStore w k st)

theorem storeOf_setStore (w : World) (k : StoreType) (st : Store) :
    storeOf (setStore w k st) k = st := by
  cases k <;> rfl

theorem filter_fresh (st : Store) (gameId : String)
    (h : ∀ r ∈ st, r.game_id ≠ gameId) :
    st.filter (fun r => r.game_id == gameId) = [] := by
  induction st with
  | nil => rfl
  | cons r rest ih =>
    have hr : (r.game_id == gameId) = false := by
      simpa using h r (List.mem_cons_self r rest)
    simp only [List.filter_cons, hr, Bool.false_eq_true, if_false]
    exact ih fun x hx => h x (List.mem_cons_of_mem r hx)

theorem find?_fresh (st : Store) (gameId : String)
    (h : ∀ r ∈ st, r.game_id ≠ gameId) :
    st.find? (fun r => r.game_id == gameId) = none := by
  induction st with
  | nil => rfl
  | cons r rest ih =>
    have hr : (r.game_id == gameId) = false := by
      simpa using h r (List.mem_cons_self r rest)
    rw [List.find?_cons_of_neg _ (by simp [hr])]
    exact ih fun x hx => h x (List.mem_cons_of_mem r hx)

theorem any_false_of_fresh (st : Store) (gameId : String)
    (h : ∀ r ∈ st, r.game_id ≠ gameId) :
    st.any (fun r => r.game_id == gameId) = false := by
  cases hany : st.any (fun r => r.game_id == gameId) with
  | false => rfl
  | true =>
    obtain ⟨x, hx, hpx⟩ := List.any_eq_true.mp hany
    exact absurd (by simpa using hpx) (h x hx)

theorem wf_filter_len (st : Store) (gameId : String) (hwf : wfStore st) :
    (st.filter (fun r => r.game_id == gameId)).length ≤ 1 := by
  induction st with
  | nil => simp
  | cons r rest ih =>
    rw [wfStore, List.map_cons, List.nodup_cons] at hwf
    obtain ⟨hnm, hnd⟩ := hwf
    cases hr : (r.game_id == gameId) with
    | false =>
      simp only [List.filter_cons, hr, Bool.false_eq_true, if_false]
      exact ih hnd
    | true =>
      have hid : r.game_id = gameId := by simpa using hr
      have hfr : rest.filter (fun x => x.game_id == gameId) = [] := by
        apply filter_fresh
        intro x hx heq
        exact hnm (by rw [hid, ← heq]; exact List.mem_map_of_mem Row.game_id hx)
      simp [List.filter_cons, hr, hfr]

theorem filter_update_gen (st : Store) (gameId s : String) :
    (st.map (fun r => if r.game_id == gameId then (⟨r.game_id, s⟩ : Row) else r)).filter
        (fun r => r.game_id == gameId)
      = (st.filter (fun r => r.game_id == gameId)).map
          (fun r => (⟨r.game_id, s⟩ : Row)) := by
  induction st with
  | nil => rfl
  | cons a l ih =>
    by_cases ha : a.game_id = gameId <;> simp [ha] at ih ⊢ <;> exact ih

theorem find?_update_gen (st : Store) (gameId s : String) :
    (st.map (fun r => if r.game_id == gameId then (⟨r.game_id, s⟩ : Row) else r)).find?
        (fun r => r.game_id == gameId)
      = (st.find? (fun r => r.game_id == gameId)).map
          (fun r => (⟨r.game_id, s⟩ : Row)) := by
  induction st with
  | nil => rfl
  | cons a l ih =>
    by_cases ha : a.game_id = gameId <;> simp [ha] at ih ⊢
    exact ih

theorem find?_append_of_none {p : Row → Bool} (l1 l2 : Store)
    (h : l1.find? p = none) : (l1 ++ l2).find? p = l2.find? p := by
  induction l1 with
  | nil => rfl
  | cons a l ih =>
    cases ha : p a with
    | true =>
      rw [List.find?_cons_of_pos _ ha] at h
      exact absurd h (by simp)
    | false =>
      rw [List.find?_cons_of_neg _ (by simp [ha])] at h
      rw [List.cons_append, List.find?_cons_of_neg _ (by simp [ha])]
      exact ih h

theorem find?_of_filter_singleton {p : Row → Bool} (st : Store) (x : Row)
    (h : st.filter p = [x]) : st.find? p = some x := by
  induction st with
  | nil => simp at h
  | cons a l ih =>
    cases ha : p a with
    | true =>
      simp only [List.filter_cons, ha, if_true, List.cons.injEq] at h
      rw [List.find?_cons_of_pos _ ha, h.1]
    | false =>
      simp only [List.filter_cons, ha, Bool.false_eq_true, if_false] at h
      rw [List.find?_cons_of_neg _ (by simp [ha])]
      exact ih h

/-- When `hasSavedGame` is false on a well-formed `PgDb` table, no row with
that id exists at all. -/
theorem pg_not_saved_fresh (st : Store) (gameId : String) (hwf : wfStore st)
    (hs : PgDb.hasSavedGame st gameId = false) :
    st.filter (fun r => r.game_id == gameId) = [] := by
  have hle := wf_filter_len st gameId hwf
  have hne1 : (st.filter (fun r => r.game_id == gameId)).length ≠ 1 := by
    simpa [PgDb.hasSavedGame] using hs
  have h0 : (st.filter (fun r => r.game_id == gameId)).length = 0 := by omega
  exact List.length_eq_zero.mp h0

/-- Round trip of `PgDb.saveGame` / `PgDb.getGameJSONById` on a well-formed
table. -/
theorem pg_roundtrip {α : Type} (c : Codec α)
    (hrt : ∀ g0, c.parse (c.stringify g0) = some g0)
    (st : Store) (gameId : String) (g : α) (hwf : wfStore st) :
    ∃ st2, PgDb.saveGame st gameId (c.stringify g) = .ok st2
      ∧ PgDb.getGameJSONById c st2 gameId = .ok (some g) := by
  cases hs : PgDb.hasSavedGame st gameId with
  | false =>
    have hnil := pg_not_saved_fresh st gameId hwf hs
    have hfresh : ∀ r ∈ st, r.game_id ≠ gameId := by
      intro r hr
      simpa using List.filter_eq_nil_iff.mp hnil r hr
    refine ⟨st ++ [⟨gameId, c.stringify g⟩], ?_, ?_⟩
    · simp [PgDb.saveGame, hs, PgDb.createGame, any_false_of_fresh st gameId hfresh]
    · simp [PgDb.getGameJSONById, List.filter_append, hnil, hrt g]
  | true =>
    obtain ⟨r, hr⟩ := List.length_eq_one.mp (by simpa [PgDb.hasSavedGame] using hs)
    refine ⟨PgDb.updateGame st gameId (c.stringify g), ?_, ?_⟩
    · simp [PgDb.saveGame, hs]
    · have hu := filter_update_gen st gameId (c.stringify g)
      rw [PgDb.updateGame, PgDb.getGameJSONById, hu, hr]
      simp [hrt g]

/-- Round trip of `SqliteDb.saveGame` / `SqliteDb.getGameJSONById` for a
non-empty session id (the empty id is defeated by the `row?.game_id`
truthiness check). -/
theorem sqlite_roundtrip {α : Type} (c : Codec α)
    (hrt : ∀ g0, c.parse (c.stringify g0) = some g0)
    (hne : ∀ g0, c.stringify g0 ≠ "")
    (st : Store) (gameId : String) (g : α) (hid : gameId ≠ "") :
    ∃ st2, SqliteDb.saveGame st gameId (c.stringify g) = .ok st2
      ∧ SqliteDb.getGameJSONById c st2 gameId = .ok (some g) := by
  cases hf : st.find? (fun r => r.game_id == gameId) with
  | none =>
    have hfresh : ∀ r ∈ st, r.game_id ≠ gameId := by
      intro r hr
      simpa using List.find?_eq_none.mp hf r hr
    have hs : SqliteDb.hasSavedGame st gameId = false := by
      simp [SqliteDb.hasSavedGame, hf]
    refine ⟨st ++ [⟨gameId, c.stringify g⟩], ?_, ?_⟩
    · simp [SqliteDb.saveGame, hs, SqliteDb.createGame,
        any_false_of_fresh st gameId hfresh]
    · rw [SqliteDb.getGameJSONById, find?_append_of_none st _ hf]
      simp [hne g, hrt g]
  | some r =>
    have hrid : r.game_id = gameId := by simpa using List.find?_some hf
    have hs : SqliteDb.hasSavedGame st gameId = true := by
      simp [SqliteDb.hasSavedGame, hf, hrid, hid]
    refine ⟨SqliteDb.updateGame st gameId (c.stringify g), ?_, ?_⟩
    · simp [SqliteDb.saveGame, hs]
    · have hu := find?_update_gen st gameId (c.stringify g)
      rw [SqliteDb.updateGame, SqliteDb.getGameJSONById, hu, hf]
      simp [hne g, hrt g]

/-- C2 (amended): `saveGame` immediately followed by `getGame` on the same
session id returns the saved payload — for the networked-relational backend
for every session id, and for the embedded-file backend for every non-empty
session id (the empty session id defeats the embedded backend's truthiness
based existence check, see the counterexample); likewise through the
exported facade for whichever backend the Router selects. -/
theorem c2_save_then_get_roundtrip {α : Type} (c : Codec α)
    (hrt : ∀ g0, c.parse (c.stringify g0) = some g0)
    (hne : ∀ g0, c.stringify g0 ≠ "")
    (st : Store) (gameId : String) (g : α) (hwf : wfStore st) :
    (∃ st2, PgDb.saveGame st gameId (c.stringify g) = .ok st2
      ∧ PgDb.getGameJSONById c st2 gameId = .ok (some g))
    ∧ (gameId ≠ "" →
      ∃ st2, SqliteDb.saveGame st gameId (c.stringify g) = .ok st2
        ∧ SqliteDb.getGameJSONById c st2 gameId = .ok (some g))
    ∧ (∀ cfg w k, getDbForGameId cfg gameId = .ok k → wfStore (storeOf w k) →
        (k = .localDb → gameId ≠ "") →
        ∃ w2, saveGameJSONById c cfg w gameId g = .ok w2
          ∧ getGameJSONById c cfg w2 gameId = .ok (some g)) := by
  refine ⟨pg_roundtrip c hrt st gameId g hwf,
    fun hid => sqlite_roundtrip c hrt hne st gameId g hid, ?_⟩
  intro cfg w k hk hwfk hloc
  cases k with
  | localDb =>
    obtain ⟨st2, hsave, hget⟩ :=
      sqlite_roundtrip c hrt hne (storeOf w .localDb) gameId g (hloc rfl)
    refine ⟨setStore w .localDb st2, ?_, ?_⟩
    · simp [saveGameJSONById, hk, driverSaveGame, hsave, Except.bind]
    · simp [getGameJSONById, hk, driverGetGame, storeOf_setStore, hget, Except.bind]
  | pg =>
    obtain ⟨st2, hsave, hget⟩ := pg_roundtrip c hrt (storeOf w .pg) gameId g hwfk
    refine ⟨setStore w .pg st2, ?_, ?_⟩
    · simp [saveGameJSONById, hk, driverSaveGame, hsave, Except.bind]
    · simp [getGameJSONById, hk, driverGetGame, storeOf_setStore, hget, Except.bind]
  | pgDeprecated =>
    obtain ⟨st2, hsave, hget⟩ := pg_roundtrip c hrt (storeOf w .pgDeprecated) gameId g hwfk
    refine ⟨setStore w .pgDeprecated st2, ?_, ?_⟩
    · simp [saveGameJSONById, hk, driverSaveGame, hsave, Except.bind]
    · simp [getGameJSONById, hk, driverGetGame, storeOf_setStore, hget, Except.bind]

/-- Witness for C2 (amended) at concrete inputs. -/
theorem c2_save_then_get_roundtrip_witness :
    ∃ st2, PgDb.saveGame [] "v2:g" (boolCodec.stringify true) = .ok st2
      ∧ PgDb.getGameJSONById boolCodec st2 "v2:g" = .ok (some true) :=
  (c2_save_then_get_roundtrip boolCodec (by decide) (by decide) [] "v2:g" true
    (by simp [wfStore])).1

/-- C2 counterexample: the claim fails as stated on the embedded-file
backend at the empty session id. The state is reachable (first conjunct);
then a save of a new payload fails with `DuplicateKey` instead of
overwriting, and the immediate read returns the OLD payload, not the one
just passed to `saveGame`. -/
theorem c2_counterexample :
    SqliteDb.saveGame [] "" (boolCodec.stringify false) = .ok [⟨"", "false"⟩]
    ∧ SqliteDb.saveGame [⟨"", "false"⟩] "" (boolCodec.stringify true)
        = .error .duplicateKey
    ∧ SqliteDb.getGameJSONById boolCodec [⟨"", "false"⟩] "" = .ok (some false) := by
  decide

/-- C3 (amended): two sequential `saveGame` calls for the same fresh
session id leave exactly one record for that id, holding the second call's
payload — unconditionally for the networked-relational backend, and for
every non-empty session id for the embedded-file backend (the empty id
makes the second embedded save fail with `DuplicateKey`, see the
counterexample). -/
theorem c3_double_save_single_record (st : Store) (gameId s1 s2 : String)
    (hfresh : ∀ r ∈ st, r.game_id ≠ gameId) :
    (∃ st1 st2, PgDb.saveGame st gameId s1 = .ok st1
      ∧ PgDb.saveGame st1 gameId s2 = .ok st2
      ∧ st2.filter (fun r => r.game_id == gameId) = [⟨gameId, s2⟩])
    ∧ (gameId ≠ "" →
      ∃ st1 st2, SqliteDb.saveGame st gameId s1 = .ok st1
        ∧ SqliteDb.saveGame st1 gameId s2 = .ok st2
        ∧ st2.filter (fun r => r.game_id == gameId) = [⟨gameId, s2⟩]) := by
  have hnil := filter_fresh st gameId hfresh
  have hany := any_false_of_fresh st gameId hfresh
  have hfil1 : (st ++ [(⟨gameId, s1⟩ : Row)]).filter (fun r => r.game_id == gameId)
      = [(⟨gameId, s1⟩ : Row)] := by
    simp [List.filter_append, hnil]
  have hfil2 : ((st ++ [(⟨gameId, s1⟩ : Row)]).map
        (fun r => if r.game_id == gameId then (⟨r.game_id, s2⟩ : Row) else r)).filter
        (fun r => r.game_id == gameId) = [(⟨gameId, s2⟩ : Row)] := by
    rw [filter_update_gen, hfil1]
    rfl
  constructor
  · have hs1 : PgDb.hasSavedGame st gameId = false := by
      simp [PgDb.hasSavedGame, hnil]
    have hs2 : PgDb.hasSavedGame (st ++ [(⟨gameId, s1⟩ : Row)]) gameId = true := by
      simp [PgDb.hasSavedGame, hfil1]
    refine ⟨st ++ [(⟨gameId, s1⟩ : Row)], _, ?_, ?_, hfil2⟩
    · rw [PgDb.saveGame, hs1, PgDb.createGame, hany]
      rfl
    · simp [PgDb.saveGame, hs2, PgDb.updateGame]
  · intro hid
    have hf : st.find? (fun r => r.game_id == gameId) = none := find?_fresh st gameId hfresh
    have hs1 : SqliteDb.hasSavedGame st gameId = false := by
      simp [SqliteDb.hasSavedGame, hf]
    have hs2 : SqliteDb.hasSavedGame (st ++ [(⟨gameId, s1⟩ : Row)]) gameId = true := by
      simp [SqliteDb.hasSavedGame, hf, hid]
    refine ⟨st ++ [(⟨gameId, s1⟩ : Row)], _, ?_, ?_, hfil2⟩
    · rw [SqliteDb.saveGame, hs1, SqliteDb.createGame, hany]
      rfl
    · simp [SqliteDb.saveGame, hs2, SqliteDb.updateGame]

/-- Witness for C3 (amended) at concrete inputs. -/
theorem c3_double_save_single_record_witness :
    ∃ st1 st2, PgDb.saveGame [] "g" "p1" = .ok st1
      ∧ PgDb.saveGame st1 "g" "p2" = .ok st2
      ∧ st2.filter (fun r => r.game_id == "g") = [⟨"g", "p2"⟩] :=
  (c3_double_save_single_record [] "g" "p1" "p2" (by simp)).1

/-- C3 counterexample: for the fresh empty session id on the embedded-file
backend, the second sequential `saveGame` fails with `DuplicateKey` instead
of updating, and the single record keeps the FIRST call's payload. -/
theorem c3_counterexample :
    SqliteDb.saveGame [] "" "p1" = .ok [⟨"", "p1"⟩]
    ∧ SqliteDb.saveGame [⟨"", "p1"⟩] "" "p2" = .error .duplicateKey
    ∧ ([⟨"", "p1"⟩] : Store).filter (fun r => r.game_id == "") = [⟨"", "p1"⟩] := by
  decide

/-- C5: `getGame` on a session id with no record returns the explicit
absence value (`ok none`) — it neither errors nor throws — on both backend
kinds and through the exported facade. -/
theorem c5_get_unknown_is_absent {α : Type} (c : Codec α) (st : Store) (gameId : String)
    (habs : ∀ r ∈ st, r.game_id ≠ gameId) :
    PgDb.getGameJSONById c st gameId = .ok none
    ∧ SqliteDb.getGameJSONById c st gameId = .ok none
    ∧ (∀ cfg w k, getDbForGameId cfg gameId = .ok k →
        (∀ r ∈ storeOf w k, r.game_id ≠ gameId) →
        getGameJSONById c cfg w gameId = .ok none) := by
  have hpg : ∀ st0 : Store, (∀ r ∈ st0, r.game_id ≠ gameId) →
      PgDb.getGameJSONById c st0 gameId = .ok none := by
    intro st0 h0
    rw [PgDb.getGameJSONById, filter_fresh st0 gameId h0]
  have hsq : ∀ st0 : Store, (∀ r ∈ st0, r.game_id ≠ gameId) →
      SqliteDb.getGameJSONById c st0 gameId = .ok none := by
    intro st0 h0
    rw [SqliteDb.getGameJSONById, find?_fresh st0 gameId h0]
  refine ⟨hpg st habs, hsq st habs, ?_⟩
  intro cfg w k hk hwk
  cases k with
  | localDb => simp [getGameJSONById, hk, driverGetGame, hsq _ hwk]
  | pg => simp [getGameJSONById, hk, driverGetGame, hpg _ hwk]
  | pgDeprecated => simp [getGameJSONById, hk, driverGetGame, hpg _ hwk]

/-- Witness for C5 at concrete inputs. -/
theorem c5_get_unknown_is_absent_witness :
    PgDb.getGameJSONById boolCodec [⟨"other", "true"⟩] "missing" = .ok none
    ∧ SqliteDb.getGameJSONById boolCodec [⟨"other", "true"⟩] "missing" = .ok none :=
  ⟨(c5_get_unknown_is_absent boolCodec [⟨"other", "true"⟩] "missing" (by decide)).1,
   (c5_get_unknown_is_absent boolCodec [⟨"other", "true"⟩] "missing" (by decide)).2.1⟩

/-- C10 counterexample: on a table holding the single record `("g", "")`,
the networked-relational driver does NOT return a parsed payload for the
existing record — `JSON.parse("")` throws, so the fetch fails with a parse
error — refuting the claim's description that it "returns the parsed
payload for any existing record" (the embedded driver returns absence). -/
theorem c10_counterexample :
    SqliteDb.getGameJSONById boolCodec [⟨"g", ""⟩] "g" = .ok none
    ∧ PgDb.getGameJSONById boolCodec [⟨"g", ""⟩] "g" = .error .parseError := by
  decide

/-- C10 (amended): the embedded-file driver's fetch returns explicit
absence whenever the found row's payload is empty, even though the record
exists; the networked-relational driver decides presence by row count
(returning absence when the count differs from one) and attempts to parse
any existing record's payload, which on the empty string raises a parse
error rather than returning a payload; hence the two drivers' fetch
results differ on a record whose stored payload is the empty string. -/
theorem c10_empty_payload_divergence {α : Type} (c : Codec α)
    (hpe : c.parse "" = none) (st : Store) (gameId : String) (r : Row)
    (hfind : st.find? (fun x => x.game_id == gameId) = some r)
    (hempty : r.game = "")
    (hcount : (st.filter (fun x => x.game_id == gameId)).length = 1) :
    SqliteDb.getGameJSONById c st gameId = .ok none
    ∧ PgDb.getGameJSONById c st gameId = .error .parseError
    ∧ SqliteDb.getGameJSONById c st gameId ≠ PgDb.getGameJSONById c st gameId
    ∧ (∀ st0 : Store, (st0.filter (fun x => x.game_id == gameId)).length ≠ 1 →
        PgDb.getGameJSONById c st0 gameId = .ok none) := by
  have hsq : SqliteDb.getGameJSONById c st gameId = .ok none := by
    rw [SqliteDb.getGameJSONById, hfind]
    simp [hempty]
  have hfil : st.filter (fun x => x.game_id == gameId) = [r] := by
    obtain ⟨x, hx⟩ := List.length_eq_one.mp hcount
    have := find?_of_filter_singleton st x hx
    rw [hfind] at this
    rw [hx, Option.some.inj this]
  have hpg : PgDb.getGameJSONById c st gameId = .error .parseError := by
    rw [PgDb.getGameJSONById, hfil]
    simp [hempty, hpe]
  refine ⟨hsq, hpg, ?_, ?_⟩
  · rw [hsq, hpg]
    intro hc
    exact Except.noConfusion hc
  · intro st0 hne1
    rw [PgDb.getGameJSONById]
    cases hf0 : st0.filter (fun x => x.game_id == gameId) with
    | nil => rfl
    | cons a t =>
      cases t with
      | nil => exact absurd (by simp [hf0]) hne1
      | cons b t2 => rfl

/-- Witness for C10 (amended) at concrete inputs. -/
theorem c10_empty_payload_divergence_witness :
    SqliteDb.getGameJSONById boolCodec [⟨"g", ""⟩] "g" = .ok none
    ∧ PgDb.getGameJSONById boolCodec [⟨"g", ""⟩] "g" = .error .parseError :=
  ⟨(c10_empty_payload_divergence boolCodec (by decide) [⟨"g", ""⟩] "g" ⟨"g", ""⟩
      (by decide) rfl (by decide)).1,
   (c10_empty_payload_divergence boolCodec (by decide) [⟨"g", ""⟩] "g" ⟨"g", ""⟩
      (by decide) rfl (by decide)).2.1⟩

/-- Driver-level operations observable during a `saveGame` call, used to
state the order of the upsert protocol. -/
inductive DbOp
  | resolveDriver (k : StoreType)
  | ensureSchema
  | existsCheck (gameId : String)
  | insertOp (gameId : String)
  | updateOp (gameId : String)
deriving DecidableEq

/-- `PgDb.saveGame` instrumented with the trace of driver calls it makes.
`mid` is the table mutation applied by a concurrent writer between the
`hasSavedGame` check and the write (`id` when there is no interleaving):
the check runs against `st`, the write against `mid st`. -/
def pgSaveGameTr (st : Store) (mid : Store → Store) (gameId gameJSON : String) :
    Except DbError Store × List DbOp :=
  if PgDb.hasSavedGame st gameId then
    (.ok (PgDb.updateGame (mid st) gameId gameJSON),
     [.existsCheck gameId, .updateOp gameId])
  else
    (PgDb.createGame (mid st) gameId gameJSON,
     [.existsCheck gameId, .insertOp gameId])

/-- `SqliteDb.saveGame` instrumented the same way. -/
def sqliteSaveGameTr (st : Store) (mid : Store → Store) (gameId gameJSON : String) :
    Except DbError Store × List DbOp :=
  if SqliteDb.hasSavedGame st gameId then
    (.ok (SqliteDb.updateGame (mid st) gameId gameJSON),
     [.existsCheck gameId, .updateOp gameId])
  else
    (SqliteDb.createGame (mid st) gameId gameJSON,
     [.existsCheck gameId, .insertOp gameId])

/-- Instrumented driver dispatch. -/
def driverSaveGameTr (k : StoreType) (st : Store) (mid : Store → Store)
    (gameId gameJSON : String) : Except DbError Store × List DbOp :=
  match k with
  | .localDb => sqliteSaveGameTr st mid gameId gameJSON
  | .pg => pgSaveGameTr st mid gameId gameJSON
  | .pgDeprecated => pgSaveGameTr st mid gameId gameJSON

/-- The exported `saveGameJSONById` facade instrumented with its trace:
it resolves the driver, runs `createGamesTableIfNotExists`, then the
driver's `saveGame`. -/
def saveGameJSONByIdTr {α : Type} (c : Codec α) (cfg : Config) (w : World)
    (mid : Store → Store) (gameId : String) (g : α) :
    Except DbError World × List DbOp :=
  match getDbForGameId cfg gameId with
  | .error e => (.error e, [])
  | .ok k =>
    let rt := driverSaveGameTr k (storeOf w k) mid gameId (c.stringify g)
    (Except.map (setStore w k) rt.1, .resolveDriver k :: .ensureSchema :: rt.2)

/-- With no interleaving writer the instrumented save agrees with the
plain embedded `saveGame` of each driver. -/
theorem saveGameTr_id_agrees (st : Store) (gameId gameJSON : String) :
    (pgSaveGameTr st id gameId gameJSON).1 = PgDb.saveGame st gameId gameJSON
    ∧ (sqliteSaveGameTr st id gameId gameJSON).1 = SqliteDb.saveGame st gameId gameJSON := by
  constructor
  · rw [pgSaveGameTr, PgDb.saveGame]
    split <;> rfl
  · rw [sqliteSaveGameTr, SqliteDb.saveGame]
    split <;> rfl

/-- Trace and failure behaviour of one instrumented driver save: the
exists-check comes first, followed by exactly one write whose kind is
decided by the check; when the check said "absent" but an interleaved
writer has inserted the id, the insert fails with `DuplicateKey`. -/
theorem driverSaveGameTr_spec (k : StoreType) (st : Store) (mid : Store → Store)
    (gameId s : String) :
    ((driverSaveGameTr k st mid gameId s).2
      = [.existsCheck gameId,
         if driverHasSavedGame k st gameId then .updateOp gameId else .insertOp gameId])
    ∧ (driverHasSavedGame k st gameId = false →
        (mid st).any (fun r => r.game_id == gameId) = true →
        (driverSaveGameTr k st mid gameId s).1 = .error .duplicateKey) := by
  cases k with
  | localDb =>
    cases hs : SqliteDb.hasSavedGame st gameId with
    | true =>
      constructor
      · simp only [driverSaveGameTr, sqliteSaveGameTr, hs, if_true, driverHasSavedGame]
      · intro hc
        simp [driverHasSavedGame, hs] at hc
    | false =>
      constructor
      · simp only [driverSaveGameTr, sqliteSaveGameTr, hs, driverHasSavedGame,
          Bool.false_eq_true, if_false]
      · intro _ hany
        simp only [driverSaveGameTr, sqliteSaveGameTr, hs, Bool.false_eq_true, if_false]
        rw [SqliteDb.createGame, hany]
        rfl
  | pg =>
    cases hs : PgDb.hasSavedGame st gameId with
    | true =>
      constructor
      · simp only [driverSaveGameTr, pgSaveGameTr, hs, if_true, driverHasSavedGame]
      · intro hc
        simp [driverHasSavedGame, hs] at hc
    | false =>
      constructor
      · simp only [driverSaveGameTr, pgSaveGameTr, hs, driverHasSavedGame,
          Bool.false_eq_true, if_false]
      · intro _ hany
        simp only [driverSaveGameTr, pgSaveGameTr, hs, Bool.false_eq_true, if_false]
        rw [PgDb.createGame, hany]
        rfl
  | pgDeprecated =>
    cases hs : PgDb.hasSavedGame st gameId with
    | true =>
      constructor
      · simp only [driverSaveGameTr, pgSaveGameTr, hs, if_true, driverHasSavedGame]
      · intro hc
        simp [driverHasSavedGame, hs] at hc
    | false =>
      constructor
      · simp only [driverSaveGameTr, pgSaveGameTr, hs, driverHasSavedGame,
          Bool.false_eq_true, if_false]
      · intro _ hany
        simp only [driverSaveGameTr, pgSaveGameTr, hs, Bool.false_eq_true, if_false]
        rw [PgDb.createGame, hany]
        rfl

/-- C4: `saveGame` resolves the driver, then calls `ensureSchema`, then
runs the upsert protocol in exactly the order exists-check, then a single
update (when the check succeeded) or a single insert (when it failed); a
`DuplicateKey` failure of the insert — here provoked by an interleaved
writer `mid` inserting the same id between check and write — propagates to
the caller, and no update is ever attempted after the failed insert. -/
theorem c4_upsert_protocol_order {α : Type} (c : Codec α) (cfg : Config) (w : World)
    (mid : Store → Store) (gameId : String) (g : α) (k : StoreType)
    (hk : getDbForGameId cfg gameId = .ok k) :
    ((saveGameJSONByIdTr c cfg w mid gameId g).2
      = [.resolveDriver k, .ensureSchema, .existsCheck gameId,
         if driverHasSavedGame k (storeOf w k) gameId then .updateOp gameId
         else .insertOp gameId])
    ∧ (driverHasSavedGame k (storeOf w k) gameId = false →
        DbOp.updateOp gameId ∉ (saveGameJSONByIdTr c cfg w mid gameId g).2)
    ∧ (driverHasSavedGame k (storeOf w k) gameId = false →
        (mid (storeOf w k)).any (fun r => r.game_id == gameId) = true →
        (saveGameJSONByIdTr c cfg w mid gameId g).1 = .error .duplicateKey) := by
  have hspec := driverSaveGameTr_spec k (storeOf w k) mid gameId (c.stringify g)
  have hfac2 : (saveGameJSONByIdTr c cfg w mid gameId g).2
      = .resolveDriver k :: .ensureSchema ::
        (driverSaveGameTr k (storeOf w k) mid gameId (c.stringify g)).2 := by
    rw [saveGameJSONByIdTr.eq_def, hk]
  have hfac1 : (saveGameJSONByIdTr c cfg w mid gameId g).1
      = Except.map (setStore w k)
          (driverSaveGameTr k (storeOf w k) mid gameId (c.stringify g)).1 := by
    rw [saveGameJSONByIdTr.eq_def, hk]
  refine ⟨?_, ?_, ?_⟩
  · rw [hfac2, hspec.1]
  · intro h
    rw [hfac2, hspec.1, h]
    simp
  · intro h hany
    rw [hfac1, hspec.2 h hany]
    rfl

/-- Witness for C4: a concrete losing race — the interleaved writer
inserts the same fresh id between the check and the write, so the insert
fails with `DuplicateKey` and it propagates through the facade. -/
theorem c4_upsert_protocol_order_witness :
    (saveGameJSONByIdTr boolCodec ⟨some "u", none, none⟩ ⟨[], [], []⟩
        (fun s => s ++ [⟨"v2:g", "zz"⟩]) "v2:g" true).1 = .error .duplicateKey :=
  (c4_upsert_protocol_order boolCodec ⟨some "u", none, none⟩ ⟨[], [], []⟩
      (fun s => s ++ [⟨"v2:g", "zz"⟩]) "v2:g" true .pg (by decide)).2.2
    (by decide) (by decide)

/-- How the browser's `Notification.requestPermission` behaves on this
platform: `promiseStyle` — it returns a promise (`.then` works);
`callbackStyle` — legacy API returning `undefined` (so `.then()` throws a
`TypeError`, while the callback form works); `throwing` — invoking it
throws synchronously in either form. -/
inductive NotifApi
  | promiseStyle
  | callbackStyle
  | throwing
deriving DecidableEq

/-- Client platform state relevant to `GameUpdater.tsx`. -/
structure Platform where
  supported : Bool
  permissionGranted : Bool
  api : NotifApi
  constructorThrows : Bool
deriving DecidableEq

/-- Models `checkNotificationPromise`: `try { Notification.requestPermission().then(); }
catch (e) { return false; } return true;` — any synchronous throw (from the
call itself or from `.then` on `undefined`) is caught and yields `false`. -/
def checkNotificationPromise (p : Platform) : Bool :=
  match p.api with
  | .promiseStyle => true
  | .callbackStyle => false
  | .throwing => false

/-- Models `enableNotifications`: unsupported platforms just log; otherwise
the promise form is used when detected, else the callback form
`Notification.requestPermission(noop)` is invoked OUTSIDE any try/catch,
so a platform whose permission request throws in that form makes
`enableNotifications` itself throw. -/
def enableNotifications (p : Platform) : Except Unit Unit :=
  if !p.supported then .ok ()
  else if checkNotificationPromise p then .ok ()
  else
    match p.api with
    | .throwing => .error ()
    | _ => .ok ()

/-- Result of the `new Notification(...)` block before the surrounding
`try`/`catch`. -/
def showTurnNotificationInner (p : Platform) : Except Unit Unit :=
  if p.supported && p.permissionGranted then
    (if p.constructorThrows then .error () else .ok ())
  else .ok ()

/-- Models the notification display site in the effect: the whole block is
wrapped in `try { ... } catch (e) { /- ignore -/ }`, so it never throws. -/
def showTurnNotification (p : Platform) : Except Unit Unit :=
  match showTurnNotificationInner p with
  | .ok _ => .ok ()
  | .error _ => .ok ()

/-- The effect's dependency inputs: `[isGameOver, activePlayerId]`. -/
structure SyncInputs where
  activePlayerId : String
  isGameOver : Bool
deriving DecidableEq

/-- Models `const isActivePlayer = activePlayerId === playerId` (with
`playerId : string | null`; comparison with `null` is `false`). -/
def isActivePlayer (pid : Option String) (inp : SyncInputs) : Bool :=
  match pid with
  | some p => inp.activePlayerId == p
  | none => false

/-- Synchronizer runtime state per mounted view: whether the recurring
fetch timer is live, the `isFirstLoadRef` cell, and the last rendered
dependency values (`none` before mount). -/
structure SyncRt where
  timerActive : Bool
  isFirstLoad : Bool
  prevDeps : Option SyncInputs
deriving DecidableEq

/-- State at mount, before the first effect run. -/
def initRt : SyncRt := ⟨false, true, none⟩

/-- Spec states of the synchronizer state machine. -/
inductive SyncState
  | idle
  | polling
  | stopped
deriving DecidableEq

def stateOf (rt : SyncRt) : SyncState :=
  match rt.prevDeps with
  | none => .idle
  | some _ => if rt.timerActive then .polling else .stopped

/-- Outcome of one run of the `useEffect` body. -/
structure EffectOut where
  raised : Bool
  timerActive : Bool
  notifyAttempts : Nat
  firstLoadAfter : Bool
deriving DecidableEq

/-- Models one run of the effect body (GameUpdater.tsx lines 80-108):
`enableNotifications()` first — if it throws, nothing below it runs; then
`setInterval` when `!isGameOver && !isActivePlayer`, else the guarded
notification attempt when `isActivePlayer && !isFirstLoadRef.current`;
finally `isFirstLoadRef.current = false`. -/
def runEffect (p : Platform) (pid : Option String) (firstLoad : Bool)
    (inp : SyncInputs) : EffectOut :=
  match enableNotifications p with
  | .error _ =>
    { raised := true, timerActive := false, notifyAttempts := 0,
      firstLoadAfter := firstLoad }
  | .ok _ =>
    if !inp.isGameOver && !isActivePlayer pid inp then
      { raised := false, timerActive := true, notifyAttempts := 0,
        firstLoadAfter := false }
    else
      { raised := false, timerActive := false,
        notifyAttempts := if isActivePlayer pid inp && !firstLoad then 1 else 0,
        firstLoadAfter := false }

/-- One render plus the interval until the next render, during which the
recurring timer (if live) fires `ticks` times, each tick issuing one
network fetch. -/
structure RenderStep where
  inp : SyncInputs
  ticks : Nat
deriving DecidableEq

/-- Observable outcome of one render step. -/
structure StepOut where
  effectRan : Bool
  raised : Bool
  notifyAttempts : Nat
  networkCalls : Nat
deriving DecidableEq

/-- One render: React re-runs the effect only when the dependency array
`[isGameOver, activePlayerId]` changed (and always at mount), after
running the previous effect's cleanup (`clearInterval`). -/
def stepRender (p : Platform) (pid : Option String) (rt : SyncRt) (s : RenderStep) :
    SyncRt × StepOut :=
  if rt.prevDeps = some s.inp then
    ({ rt with prevDeps := some s.inp },
     { effectRan := false, raised := false, notifyAttempts := 0,
       networkCalls := if rt.timerActive then s.ticks else 0 })
  else
    let eo := runEffect p pid rt.isFirstLoad s.inp
    ({ timerActive := eo.timerActive, isFirstLoad := eo.firstLoadAfter,
       prevDeps := some s.inp },
     { effectRan := true, raised := eo.raised, notifyAttempts := eo.notifyAttempts,
       networkCalls := if eo.timerActive then s.ticks else 0 })

/-- Run a sequence of renders from a given runtime state, collecting the
post-state and output of each step. -/
def runRenders (p : Platform) (pid : Option String) :
    SyncRt → List RenderStep → List (SyncRt × StepOut)
  | _, [] => []
  | rt, s :: rest =>
    let rs := stepRender p pid rt s
    rs :: runRenders p pid rs.1 rest

/-- Final runtime state after a sequence of renders. -/
def finalRt (p : Platform) (pid : Option String) (rt : SyncRt)
    (steps : List RenderStep) : SyncRt :=
  steps.foldl (fun r s => (stepRender p pid r s).1) rt

theorem runEffect_gameover (p : Platform) (pid : Option String) (fl : Bool)
    (inp : SyncInputs) (hgo : inp.isGameOver = true) :
    (runEffect p pid fl inp).timerActive = false := by
  rw [runEffect]
  cases enableNotifications p with
  | error e => rfl
  | ok u => simp [hgo]

theorem stateOf_not_polling (rt : SyncRt) (ht : rt.timerActive = false) :
    stateOf rt ≠ SyncState.polling := by
  rw [stateOf]
  cases rt.prevDeps with
  | none => simp
  | some d => simp [ht]

/-- C8: when every render since mount has `isGameOver = true`, the
synchronizer never enters the `Polling` state and issues zero network
calls, for every `activePlayerId`/local player id; and in general one
effect run starts the polling timer only when the game is not over and the
active player differs from the local player. -/
theorem c8_gameover_never_polls (p : Platform) (pid : Option String)
    (steps : List RenderStep) (h : ∀ s ∈ steps, s.inp.isGameOver = true) :
    (∀ x ∈ runRenders p pid initRt steps,
      stateOf x.1 ≠ SyncState.polling ∧ x.2.networkCalls = 0)
    ∧ (∀ fl inp, (runEffect p pid fl inp).timerActive = true →
        inp.isGameOver = false ∧ isActivePlayer pid inp = false) := by
  constructor
  · have inv : ∀ steps0 : List RenderStep, ∀ rt : SyncRt,
        (∀ s ∈ steps0, s.inp.isGameOver = true) → rt.timerActive = false →
        ∀ x ∈ runRenders p pid rt steps0,
          x.1.timerActive = false ∧ x.2.networkCalls = 0 := by
      intro steps0
      induction steps0 with
      | nil =>
        intro rt _ _ x hx
        simp [runRenders] at hx
      | cons s rest ih =>
        intro rt hall hrt x hx
        have hstep : (stepRender p pid rt s).1.timerActive = false
            ∧ (stepRender p pid rt s).2.networkCalls = 0 := by
          by_cases hdep : rt.prevDeps = some s.inp
          · simp [stepRender, hdep, hrt]
          · have hgo := hall s (List.mem_cons_self s rest)
            simp [stepRender, hdep, runEffect_gameover p pid rt.isFirstLoad s.inp hgo]
        simp only [runRenders] at hx
        rcases List.mem_cons.mp hx with rfl | hmem
        · exact hstep
        · exact ih (stepRender p pid rt s).1
            (fun u hu => hall u (List.mem_cons_of_mem s hu)) hstep.1 x hmem
    intro x hx
    have hbase := inv steps initRt h rfl x hx
    exact ⟨stateOf_not_polling x.1 hbase.1, hbase.2⟩
  · intro fl inp ht
    rw [runEffect] at ht
    cases he : enableNotifications p with
    | error e =>
      rw [he] at ht
      simp at ht
    | ok u =>
      rw [he] at ht
      cases hc : (!inp.isGameOver && !isActivePlayer pid inp) with
      | false =>
        rw [hc] at ht
        simp at ht
      | true =>
        simpa using hc

/-- Witness for C8 at a concrete run with the game over at mount. -/
theorem c8_gameover_never_polls_witness :
    stateOf (stepRender ⟨true, true, .promiseStyle, false⟩ (some "P2") initRt
        ⟨⟨"P1", true⟩, 5⟩).1 ≠ SyncState.polling
    ∧ (stepRender ⟨true, true, .promiseStyle, false⟩ (some "P2") initRt
        ⟨⟨"P1", true⟩, 5⟩).2.networkCalls = 0 :=
  (c8_gameover_never_polls ⟨true, true, .promiseStyle, false⟩ (some "P2")
      [⟨⟨"P1", true⟩, 5⟩] (by decide)).1
    (stepRender ⟨true, true, .promiseStyle, false⟩ (some "P2") initRt
      ⟨⟨"P1", true⟩, 5⟩) (by decide)

theorem stepRender_prevDeps (p : Platform) (pid : Option String) (rt : SyncRt)
    (s : RenderStep) : (stepRender p pid rt s).1.prevDeps = some s.inp := by
  by_cases hdep : rt.prevDeps = some s.inp <;> simp [stepRender, hdep]

theorem runEffect_ok (p : Platform) (pid : Option String) (fl : Bool)
    (inp : SyncInputs) (hok : enableNotifications p = .ok ()) :
    (runEffect p pid fl inp).raised = false
    ∧ (runEffect p pid fl inp).firstLoadAfter = false := by
  rw [runEffect, hok]
  by_cases hc : (!inp.isGameOver && !isActivePlayer pid inp) = true <;> simp [hc]

theorem stepRender_firstLoad_pres (p : Platform) (pid : Option String) (rt : SyncRt)
    (s : RenderStep) (hok : enableNotifications p = .ok ())
    (hfl : rt.isFirstLoad = false) : (stepRender p pid rt s).1.isFirstLoad = false := by
  by_cases hdep : rt.prevDeps = some s.inp
  · simp [stepRender, hdep, hfl]
  · simp [stepRender, hdep, (runEffect_ok p pid rt.isFirstLoad s.inp hok).2]

theorem finalRt_firstLoad_pres (p : Platform) (pid : Option String)
    (steps : List RenderStep) (hok : enableNotifications p = .ok ()) :
    ∀ rt : SyncRt, rt.isFirstLoad = false →
      (finalRt p pid rt steps).isFirstLoad = false := by
  induction steps with
  | nil => intro rt hf; exact hf
  | cons s rest ih =>
    intro rt hf
    rw [finalRt, List.foldl_cons]
    exact ih (stepRender p pid rt s).1 (stepRender_firstLoad_pres p pid rt s hok hf)

theorem finalRt_firstLoad_false (p : Platform) (pid : Option String)
    (l : List RenderStep) (sl : RenderStep) (hok : enableNotifications p = .ok ()) :
    (finalRt p pid initRt (l ++ [sl])).isFirstLoad = false := by
  cases l with
  | nil =>
    rw [finalRt, List.nil_append, List.foldl_cons, List.foldl_nil]
    have hdep : initRt.prevDeps ≠ some sl.inp := by
      rw [initRt]
      intro hc
      exact Option.noConfusion hc
    simp [stepRender, hdep, (runEffect_ok p pid initRt.isFirstLoad sl.inp hok).2]
  | cons s0 t =>
    rw [List.cons_append, finalRt, List.foldl_cons]
    have h0 : (stepRender p pid initRt s0).1.isFirstLoad = false := by
      have hdep : initRt.prevDeps ≠ some s0.inp := by
        rw [initRt]
        intro hc
        exact Option.noConfusion hc
      simp [stepRender, hdep, (runEffect_ok p pid initRt.isFirstLoad s0.inp hok).2]
    exact finalRt_firstLoad_pres p pid (t ++ [sl]) hok (stepRender p pid initRt s0).1 h0

theorem finalRt_prevDeps_concat (p : Platform) (pid : Option String) (rt : SyncRt)
    (l : List RenderStep) (sl : RenderStep) :
    (finalRt p pid rt (l ++ [sl])).prevDeps = some sl.inp := by
  rw [finalRt, List.foldl_append, List.foldl_cons, List.foldl_nil]
  exact stepRender_prevDeps p pid _ sl

theorem runRenders_concat (p : Platform) (pid : Option String) (rt : SyncRt)
    (steps : List RenderStep) (s : RenderStep) :
    runRenders p pid rt (steps ++ [s])
      = runRenders p pid rt steps
        ++ [stepRender p pid (finalRt p pid rt steps) s] := by
  induction steps generalizing rt with
  | nil => rfl
  | cons a t ih =>
    simp only [List.cons_append, runRenders, List.append_eq]
    rw [ih (stepRender p pid rt a).1]
    rfl

theorem runRenders_raised_false (p : Platform) (pid : Option String)
    (hok : enableNotifications p = .ok ()) :
    ∀ steps : List RenderStep, ∀ rt : SyncRt,
      ∀ x ∈ runRenders p pid rt steps, x.2.raised = false := by
  intro steps
  induction steps with
  | nil =>
    intro rt x hx
    simp [runRenders] at hx
  | cons s rest ih =>
    intro rt x hx
    simp only [runRenders] at hx
    rcases List.mem_cons.mp hx with rfl | hmem
    · by_cases hdep : rt.prevDeps = some s.inp
      · simp [stepRender, hdep]
      · simp [stepRender, hdep, (runEffect_ok p pid rt.isFirstLoad s.inp hok).1]
    · exact ih (stepRender p pid rt s).1 x hmem

theorem runEffect_active_notifies (p : Platform) (pid : Option String)
    (inp : SyncInputs) (hok : enableNotifications p = .ok ())
    (hact : isActivePlayer pid inp = true) :
    (runEffect p pid false inp).notifyAttempts = 1 := by
  rw [runEffect, hok]
  simp [hact]

/-- C9 (amended): on a non-mount render where `activePlayerId` becomes
equal to the local player id, the synchronizer makes exactly one local
notification attempt, every notification-display failure is swallowed, and
no effect run raises — PROVIDED the platform's permission request does not
throw synchronously in both invocation styles (`enableNotifications`
succeeds): the legacy promise-detection throw is swallowed by falling back
to the callback form, but a callback-form throw would propagate (see the
counterexample). -/
theorem c9_turn_notification (p : Platform) (pl : String) (l : List RenderStep)
    (sl s : RenderStep) (hok : enableNotifications p = .ok ())
    (hprev : sl.inp.activePlayerId ≠ pl) (hnew : s.inp.activePlayerId = pl) :
    ((runRenders p (some pl) initRt ((l ++ [sl]) ++ [s])).map
        (fun x => x.2.notifyAttempts)).getLast? = some 1
    ∧ (∀ steps : List RenderStep, ∀ x ∈ runRenders p (some pl) initRt steps,
        x.2.raised = false)
    ∧ (∀ q : Platform, showTurnNotification q = .ok ()) := by
  refine ⟨?_,
    fun steps x hx => runRenders_raised_false p (some pl) hok steps initRt x hx, ?_⟩
  · rw [runRenders_concat, List.map_append]
    simp only [List.map_cons, List.map_nil]
    rw [List.getLast?_concat]
    have hfl := finalRt_firstLoad_false p (some pl) l sl hok
    have hpd := finalRt_prevDeps_concat p (some pl) initRt l sl
    have hdep : (finalRt p (some pl) initRt (l ++ [sl])).prevDeps ≠ some s.inp := by
      rw [hpd]
      intro hc
      have : sl.inp = s.inp := Option.some.inj hc
      exact hprev (by rw [this, hnew])
    have hact : isActivePlayer (some pl) s.inp = true := by
      simp [isActivePlayer, hnew]
    simp only [stepRender, hdep, if_neg, List.map_cons]
    rw [hfl]
    rw [runEffect_active_notifies p (some pl) s.inp hok hact]
    simp
  · intro q
    cases hq : showTurnNotificationInner q with
    | ok u => simp [showTurnNotification, hq]
    | error e => simp [showTurnNotification, hq]

/-- Witness for C9 (amended) at a concrete run. -/
theorem c9_turn_notification_witness :
    ((runRenders ⟨true, true, .promiseStyle, false⟩ (some "P2") initRt
        (([] ++ [⟨⟨"P1", false⟩, 2⟩]) ++ [⟨⟨"P2", false⟩, 0⟩])).map
      (fun x => x.2.notifyAttempts)).getLast? = some 1 :=
  (c9_turn_notification ⟨true, true, .promiseStyle, false⟩ "P2" []
      ⟨⟨"P1", false⟩, 2⟩ ⟨⟨"P2", false⟩, 0⟩ (by decide) (by decide) (by decide)).1

/-- C9 counterexample: on a supported platform whose permission request
throws synchronously in both invocation styles, the render where
`activePlayerId` becomes the local player id makes ZERO notification
attempts and the effect RAISES the throw to the caller (the unguarded
callback-form fallback `Notification.requestPermission(noop)` re-throws),
refuting both the "exactly one attempt" and the "never raises" parts of
the claim as stated. -/
theorem c9_counterexample :
    ((runRenders ⟨true, true, .throwing, false⟩ (some "P2") initRt
        [⟨⟨"P1", false⟩, 0⟩, ⟨⟨"P2", false⟩, 0⟩]).map
      (fun x => (x.2.raised, x.2.notifyAttempts)))
    = [(true, 0), (true, 0)] := by
  decide

end Everdell
